import Mathlib

/-!
Verification of `src/utils/get-project-content.js`: a shallow embedding of the
content-aggregation pipeline (collections, fragments, fragment compositions and
page templates discovered on a modelled filesystem) together with theorems
settling the specification's claims about it.

Modelling conventions:
* An absolute filesystem path is a list of components (`FPath`).
* The filesystem is a finite association list from paths to entries; an entry is
  either a text file with its raw contents or a directory.  `fs.readFileSync`
  on a directory raises `EISDIR`, on an absent path `ENOENT`, exactly as the
  Node APIs used by the source do on Linux.
* `JSON.parse` / `JSON.stringify` are the host builtins; they are modelled by an
  executable recursive-descent parser and printer over a JSON value type.  The
  model covers the JSON fragment the program's data actually uses (null,
  booleans, integer numbers, strings with the common escapes, arrays, objects
  with last-duplicate-wins member semantics); floating point literals and
  `\u` escapes are out of scope and parse to `none`.
* `glob.sync(path.join(base, '*', marker))` is modelled by filtering the
  filesystem's entries for paths of the shape `base ++ [child, marker]` where
  `child` does not start with a dot (glob's default `dot:false`), in the order
  the entries are listed.
* Thrown JS exceptions are modelled with `Except JsError`; `log` calls are
  modelled by returning the list of emitted `LogEntry` values alongside the
  result, in emission order.
-/

namespace Glf

/-- An absolute filesystem path, as its list of components. -/
abbrev FPath := List String

/-- JSON values, the result type of the modelled `JSON.parse`. -/
inductive Json where
  | null : Json
  | bool (b : Bool) : Json
  | num (n : Int) : Json
  | str (s : String) : Json
  | arr (elems : List Json) : Json
  | obj (members : List (String × Json)) : Json
deriving Repr

/-- JS member access `o[k]` on a parsed JSON value: `none` models `undefined`
(also for access on a non-object). First (unique) matching key wins. -/
def lookupMember : List (String × Json) → String → Option Json
  | [], _ => none
  | (k', v) :: rest, k => if k' = k then some v else lookupMember rest k

/-- JS property access `metadata.k`: `none` models `undefined`. -/
def jsonLookup : Json → String → Option Json
  | .obj ms, k => lookupMember ms k
  | _, _ => none

/-- JS object-literal duplicate-key semantics used by `JSON.parse`: a repeated
key overwrites the value in place (the first occurrence keeps its position). -/
def insertMember : List (String × Json) → String → Json → List (String × Json)
  | [], k, v => [(k, v)]
  | (k', v') :: rest, k, v =>
    if k' = k then (k', v) :: rest else (k', v') :: insertMember rest k v

/-! ### The modelled `JSON.parse` -/

/-- Skip JSON whitespace. -/
def skipWs : List Char → List Char
  | c :: rest =>
    if c = ' ' ∨ c = '\n' ∨ c = '\t' ∨ c = '\r' then skipWs rest else c :: rest
  | [] => []

/-- Decode one escape character after a backslash (`\u` unsupported: `none`). -/
def escChar (c : Char) : Option Char :=
  if c = '"' then some '"'
  else if c = '\\' then some '\\'
  else if c = '/' then some '/'
  else if c = 'n' then some '\n'
  else if c = 't' then some '\t'
  else if c = 'r' then some '\r'
  else if c = 'b' then some (Char.ofNat 8)
  else if c = 'f' then some (Char.ofNat 12)
  else none

/-- Parse the body of a JSON string after the opening quote; returns the
decoded characters and the input after the closing quote. -/
def parseStringChars : List Char → Option (List Char × List Char)
  | [] => none
  | c :: rest =>
    if c = '"' then some ([], rest)
    else if c = '\\' then
      match rest with
      | [] => none
      | e :: rest2 =>
        match escChar e with
        | some ec => (parseStringChars rest2).map (fun p => (ec :: p.1, p.2))
        | none => none
    else (parseStringChars rest).map (fun p => (c :: p.1, p.2))

/-- Take a maximal run of decimal digits. -/
def takeDigits : List Char → List Char × List Char
  | [] => ([], [])
  | c :: r =>
    if c.isDigit then
      let p := takeDigits r
      (c :: p.1, p.2)
    else ([], c :: r)

def digitsToNat (ds : List Char) : Nat :=
  ds.foldl (fun a c => a * 10 + (c.toNat - 48)) 0

/-- Parse a JSON integer literal (floating point forms are out of the model's
scope and yield `none`). -/
def parseNumber (l : List Char) : Option (Int × List Char) :=
  let neg : Bool := match l with | c :: _ => c = '-' | [] => false
  let l1 := if neg then l.drop 1 else l
  match takeDigits l1 with
  | ([], _) => none
  | (ds, rest) =>
    let bad : Bool := match rest with
      | c :: _ => c = '.' ∨ c = 'e' ∨ c = 'E'
      | [] => false
    if bad then none
    else
      let n : Int := Int.ofNat (digitsToNat ds)
      some (if neg then -n else n, rest)

/-- Opening and closing brace characters. -/
def lbrace : Char := Char.ofNat 123
def rbrace : Char := Char.ofNat 125

/-- Parse `"key"` followed by optional whitespace and a colon. -/
def parseKeyColon (l : List Char) : Option (String × List Char) :=
  match l with
  | c :: r =>
    if c = '"' then
      match parseStringChars r with
      | some (cs, rest) =>
        match skipWs rest with
        | c2 :: rest2 => if c2 = ':' then some (String.mk cs, rest2) else none
        | [] => none
      | none => none
    else none
  | [] => none

/-- Parser modes: a top-level value, the tail of an array after its first
element, or the tail of an object after a member. -/
inductive PMode where
  | top : PMode
  | arrTail (acc : List Json) : PMode
  | objTail (acc : List (String × Json)) : PMode

/-- Fuel-indexed recursive-descent JSON parser (the fuel only bounds the
recursion depth; `Json.parse` supplies enough for any input). -/
def parseRun : Nat → PMode → List Char → Option (Json × List Char)
  | 0, _, _ => none
  | fuel + 1, .top, l =>
    match skipWs l with
    | 'n' :: 'u' :: 'l' :: 'l' :: r => some (.null, r)
    | 't' :: 'r' :: 'u' :: 'e' :: r => some (.bool true, r)
    | 'f' :: 'a' :: 'l' :: 's' :: 'e' :: r => some (.bool false, r)
    | c :: r =>
      if c = '"' then
        (parseStringChars r).map (fun p => (.str (String.mk p.1), p.2))
      else if c = '[' then
        match skipWs r with
        | c2 :: r2 =>
          if c2 = ']' then some (.arr [], r2)
          else
            (parseRun fuel .top (c2 :: r2)).bind fun p =>
              parseRun fuel (.arrTail [p.1]) (skipWs p.2)
        | [] => none
      else if c = lbrace then
        match skipWs r with
        | c2 :: r2 =>
          if c2 = rbrace then some (.obj [], r2)
          else
            (parseKeyColon (c2 :: r2)).bind fun kp =>
              (parseRun fuel .top kp.2).bind fun vp =>
                parseRun fuel (.objTail (insertMember [] kp.1 vp.1)) (skipWs vp.2)
        | [] => none
      else
        (parseNumber (c :: r)).map (fun p => (.num p.1, p.2))
    | [] => none
  | fuel + 1, .arrTail acc, l =>
    match l with
    | c :: r =>
      if c = ']' then some (.arr acc, r)
      else if c = ',' then
        (parseRun fuel .top (skipWs r)).bind fun p =>
          parseRun fuel (.arrTail (acc ++ [p.1])) (skipWs p.2)
      else none
    | [] => none
  | fuel + 1, .objTail acc, l =>
    match l with
    | c :: r =>
      if c = rbrace then some (.obj acc, r)
      else if c = ',' then
        (parseKeyColon (skipWs r)).bind fun kp =>
          (parseRun fuel .top kp.2).bind fun vp =>
            parseRun fuel (.objTail (insertMember acc kp.1 vp.1)) (skipWs vp.2)
      else none
    | [] => none

/-- The modelled `JSON.parse`: `none` is a thrown `SyntaxError`. -/
def Json.parse (s : String) : Option Json :=
  match parseRun (2 * s.length + 8) .top s.data with
  | some (j, rest) => if skipWs rest = [] then some j else none
  | none => none

/-! ### The modelled `JSON.stringify` -/

/-- Escape a character for a JSON string literal (the common escapes; other
control characters are left untouched, which the program's data never hits). -/
def escJsonChar (c : Char) : List Char :=
  if c = '"' then ['\\', '"']
  else if c = '\\' then ['\\', '\\']
  else if c = '\n' then ['\\', 'n']
  else if c = '\t' then ['\\', 't']
  else if c = '\r' then ['\\', 'r']
  else [c]

/-- A quoted JSON string literal. -/
def quoteJson (s : String) : String :=
  "\"" ++ String.mk (s.data.foldr (fun c acc => escJsonChar c ++ acc) []) ++ "\""

/-- Join with a separator (used for `,`-joined stringify output and
`/`-joined path display). -/
def joinWith (sep : String) : List String → String
  | [] => ""
  | [s] => s
  | s :: rest => s ++ sep ++ joinWith sep rest

/-- The modelled `JSON.stringify` (compact form, member order preserved). -/
def Json.stringify : Json → String
  | .null => "null"
  | .bool true => "true"
  | .bool false => "false"
  | .num n => toString n
  | .str s => quoteJson s
  | .arr es =>
    "[" ++ joinWith "," (es.attach.map fun e => Json.stringify e.1) ++ "]"
  | .obj ms =>
    String.singleton lbrace ++
      joinWith "," (ms.attach.map fun m => quoteJson m.1.1 ++ ":" ++ Json.stringify m.1.2) ++
      String.singleton rbrace
termination_by j => sizeOf j
decreasing_by
  · have h := List.sizeOf_lt_of_mem e.2
    simp only [Json.arr.sizeOf_spec]
    omega
  · have h := List.sizeOf_lt_of_mem m.2
    have h2 : sizeOf m.1.2 < sizeOf m.1 := by
      obtain ⟨a, b⟩ := m.1
      simp only [Prod.mk.sizeOf_spec]
      omega
    simp only [Json.obj.sizeOf_spec]
    omega

/-! ### Paths (`path.resolve`, `path.join`, `path.basename`) -/

/-- Split relative-path text on `/` separators. -/
def splitSlashAux : List Char → List Char → List String
  | [], acc => [String.mk acc.reverse]
  | c :: rest, acc =>
    if c = '/' then String.mk acc.reverse :: splitSlashAux rest []
    else splitSlashAux rest (c :: acc)

def pathSegs (rel : String) : List String := splitSlashAux rel.data []

/-- Does the path text start with `/` (an absolute path)? -/
def isAbsolute (rel : String) : Bool :=
  match rel.data with
  | c :: _ => c = '/'
  | [] => false

/-- Apply one path segment, `path.resolve`-style: empty and `.` segments are
skipped, `..` pops a component, anything else is pushed. -/
def applySeg (acc : FPath) (seg : String) : FPath :=
  if seg = "" ∨ seg = "." then acc
  else if seg = ".." then acc.dropLast
  else acc ++ [seg]

/-- The modelled `path.resolve(dir, rel)` for a string `rel` against an
absolute directory `dir`.  `resolvePath dir "" = dir`, matching Node. -/
def resolvePath (dir : FPath) (rel : String) : FPath :=
  (pathSegs rel).foldl applySeg (if isAbsolute rel then [] else dir)

/-- The modelled `path.basename`. -/
def FPath.basename (p : FPath) : String := p.getLast?.getD ""

/-- Display a path the way the source's template literals do. -/
def FPath.display (p : FPath) : String := "/" ++ joinWith "/" p

/-! ### The modelled filesystem and `glob` -/

/-- A filesystem entry: a text file with its raw contents, or a directory. -/
inductive FData where
  | file (content : String) : FData
  | dir : FData
deriving Repr, DecidableEq

/-- A finite filesystem: an association list from absolute paths to entries
(first match wins; a real filesystem has no duplicate paths). The list order
is the traversal order `glob.sync` reports matches in. -/
structure FS where
  entries : List (FPath × FData)
deriving Repr

def FS.lookup (fsys : FS) (p : FPath) : Option FData :=
  (fsys.entries.find? (fun e => e.1 == p)).map (fun e => e.2)

/-- The modelled `fs.existsSync`. -/
def FS.existsSync (fsys : FS) (p : FPath) : Bool := (fsys.lookup p).isSome

/-- A thrown JS exception, as the sites in this program can produce them. -/
inductive JsError where
  /-- `fs.readFileSync` on an absent path. -/
  | enoent (p : FPath) : JsError
  /-- `fs.readFileSync` on a directory. -/
  | eisdir (p : FPath) : JsError
  /-- `JSON.parse` on malformed text. -/
  | parseError : JsError
  /-- `path.resolve` on a non-string argument (e.g. `undefined`). -/
  | typeError : JsError
deriving Repr, DecidableEq

/-- The modelled `fs.readFileSync(p, 'utf-8')`. -/
def FS.readFileSyncE (fsys : FS) (p : FPath) : Except JsError String :=
  match fsys.lookup p with
  | some (.file s) => .ok s
  | some .dir => .error (.eisdir p)
  | none => .error (.enoent p)

/-- Does `p` match the pattern `base ++ [*, marker]`?  `*` follows glob's
default of not matching names that start with a dot. -/
def globMatch (base : FPath) (marker : String) (p : FPath) : Bool :=
  p.take base.length == base &&
    match p.drop base.length with
    | [child, m] =>
      m == marker &&
        !(match child.data with | c :: _ => c = '.' | [] => false : Bool)
    | _ => false

/-- The modelled `glob.sync(path.join(base, '*', marker))`: the existing paths
matching the pattern, in filesystem traversal order. -/
def FS.glob (fsys : FS) (base : FPath) (marker : String) : List FPath :=
  (fsys.entries.map (fun e => e.1)).filter (globMatch base marker)

/-! ### JS value coercions used by the source's template literals -/

/-- JS truthiness of a possibly-`undefined` JSON value (`none` is
`undefined`). -/
def jsTruthy : Option Json → Bool
  | none => false
  | some .null => false
  | some (.bool b) => b
  | some (.num n) => n != 0
  | some (.str s) => s ≠ ""
  | some (.obj _) => true
  | some (.arr _) => true

/-- Display of an array element inside JS array-to-string coercion
(approximate: nested arrays/objects are flattened shallowly; the program's
log messages never reach this case with nested data). -/
def jsElemDisplay : Json → String
  | .null => ""
  | .bool b => cond b "true" "false"
  | .num n => toString n
  | .str s => s
  | .obj _ => "[object Object]"
  | .arr _ => ""

/-- JS string coercion of a possibly-`undefined` value, as `${...}` does. -/
def jsDisplay : Option Json → String
  | none => "undefined"
  | some .null => "null"
  | some (.bool b) => cond b "true" "false"
  | some (.num n) => toString n
  | some (.str s) => s
  | some (.obj _) => "[object Object]"
  | some (.arr es) => joinWith "," (es.map jsElemDisplay)

/-- `metadata.name || directory` coerced to text by a template literal. -/
def jsOrPath (v : Option Json) (p : FPath) : String :=
  if jsTruthy v then jsDisplay v else FPath.display p

/-! ### Logging -/

/-- One emitted log entry: the message and the options the call site passed.
Modelled from the spec: the logging transport (`../utils/log`) is an external
collaborator; we record the message, the level tag and the `newLine` flag as
passed at each call site, with `""`/`false` for omitted options. -/
structure LogEntry where
  message : String
  level : String
  newLine : Bool
deriving Repr, DecidableEq

/-- Modelled from the spec: `LOG_LEVEL.error` from the external `log` module;
§6 of the spec only requires an error-equivalent severity tag. -/
def LOG_LEVEL_error : String := "LOG_LEVEL_ERROR"

/-! ### The project data model (`../types/index`) -/

structure Fragment where
  slug : String
  metadata : Json
  html : String
  css : String
  js : String
  configuration : String
deriving Repr

structure FragmentComposition where
  slug : String
  metadata : Json
  definitionData : String
deriving Repr

/-- A page template's metadata has exactly a `name` (copied from the marker,
possibly `undefined`) and the derived absolute definition path. -/
structure PTMetadata where
  name : Option Json
  pageTemplateDefinitionPath : FPath
deriving Repr

structure PageTemplate where
  slug : String
  metadata : PTMetadata
  definitionData : String
deriving Repr

structure Collection where
  slug : String
  fragmentCollectionId : String
  metadata : Json
  fragmentCompositions : List FragmentComposition
  fragments : List Fragment
deriving Repr

structure Project where
  basePath : FPath
  project : Json
  collections : List Collection
  pageTemplates : List PageTemplate
deriving Repr

/-- `true` iff the computation did not throw. -/
def isOkE {α : Type} : Except JsError α → Bool
  | .ok _ => true
  | .error _ => false

/-! ### The embedded program: `src/utils/get-project-content.js` -/

/-- `_readJSONSync(jsonPath)`: `JSON.parse(fs.readFileSync(jsonPath, 'utf-8'))`.
Both the read and the parse can throw. -/
def _readJSONSync (fsys : FS) (jsonPath : FPath) : Except JsError Json :=
  match fsys.readFileSyncE jsonPath with
  | .error e => .error e
  | .ok content =>
    match Json.parse content with
    | some j => .ok j
    | none => .error .parseError

/-- The body shared by the two `readFile` closures: try to resolve and read
`filePath`; on any throw (a non-string `filePath` makes `path.resolve` throw,
a missing file or a directory makes `readFileSync` throw) the `catch` emits
`onError` and yields `""`. -/
def readFileCaught (fsys : FS) (directory : FPath) (onError : List LogEntry)
    (filePath : Option Json) : String × List LogEntry :=
  match filePath with
  | some (.str s) =>
    match fsys.readFileSyncE (resolvePath directory s) with
    | .ok content => (content, [])
    | .error _ => ("", onError)
  | _ => ("", onError)

/-- The `readFile` closure inside `_getCollectionFragments`. -/
def fragmentReadFile (fsys : FS) (directory : FPath) (metadata : Json)
    (filePath : Option Json) : String × List LogEntry :=
  readFileCaught fsys directory
    [⟨"✘ Fragment " ++ jsOrPath (jsonLookup metadata "name") directory,
        LOG_LEVEL_error, true⟩,
      ⟨"File " ++ jsDisplay filePath ++ " was not found", "", false⟩]
    filePath

/-- The `readFile` closure inside `_getCollectionFragmentCompositions`. -/
def compositionReadFile (fsys : FS) (directory : FPath) (metadata : Json)
    (filePath : Option Json) : String × List LogEntry :=
  readFileCaught fsys directory
    [⟨"✘ Fragment composition " ++ jsOrPath (jsonLookup metadata "name") directory,
        LOG_LEVEL_error, true⟩,
      ⟨"File " ++ jsDisplay filePath ++ " was not found", "", false⟩]
    filePath

/-- `_getFramentConfiguration(directory, configurationPath)` (source name kept,
typo included).  A falsy path yields `""`; a truthy path is resolved
(`path.resolve` throws on a truthy non-string) and, if `existsSync` holds, read
with `fs.readFileSync` outside any try/catch — so a read failure (e.g. the
path names a directory) propagates. -/
def _getFramentConfiguration (fsys : FS) (directory : FPath)
    (configurationPath : Option Json) : Except JsError String :=
  if jsTruthy configurationPath then
    match configurationPath with
    | some (.str s) =>
      if fsys.existsSync (resolvePath directory s) then
        fsys.readFileSyncE (resolvePath directory s)
      else .ok ""
    | _ => .error .typeError
  else .ok ""

/-- The `.filter` stage shared by all four scans: drop (and log) directories
whose marker file fails `_readJSONSync`, keep the rest in order. -/
def filterDirs (fsys : FS) (marker : String) (msg : FPath → String) :
    List FPath → List FPath × List LogEntry
  | [] => ([], [])
  | d :: rest =>
    match _readJSONSync fsys (resolvePath d marker) with
    | .ok _ =>
      (d :: (filterDirs fsys marker msg rest).1, (filterDirs fsys marker msg rest).2)
    | .error _ =>
      ((filterDirs fsys marker msg rest).1,
        ⟨msg d, "LOG_LEVEL_ERROR", false⟩ :: (filterDirs fsys marker msg rest).2)

/-- The scan stage shared by all four entity families (spec §4.1):
`glob.sync(path.join(base, '*', marker))`, then `path.resolve(match, '..')`,
then the validating `.filter`. -/
def scanDirs (fsys : FS) (base : FPath) (marker : String) (msg : FPath → String) :
    List FPath × List LogEntry :=
  filterDirs fsys marker msg ((fsys.glob base marker).map List.dropLast)

def collectionIgnoredMsg (directory : FPath) : String :=
  "✘ Invalid " ++ FPath.display directory ++ "/collection.json, collection ignored"

def fragmentIgnoredMsg (directory : FPath) : String :=
  "✘ Invalid " ++ FPath.display directory ++ "/fragment.json, fragment ignored"

def compositionIgnoredMsg (directory : FPath) : String :=
  "✘ Invalid " ++ FPath.display directory ++
    "/fragment-composition.json, fragment composition ignored"

def pageTemplateIgnoredMsg (directory : FPath) : String :=
  "✘ Invalid " ++ FPath.display directory ++
    "/page-template.json, page template ignored"

/-- The `.map` callback of `_getCollectionFragments`: re-read the marker, load
`html`/`css`/`js` through the catching `readFile`, then the configuration
(whose read can throw, aborting after the three loads' logs were emitted). -/
def buildFragment (fsys : FS) (directory : FPath) :
    Except JsError Fragment × List LogEntry :=
  match _readJSONSync fsys (resolvePath directory "fragment.json") with
  | .error e => (.error e, [])
  | .ok metadata =>
    let h := fragmentReadFile fsys directory metadata (jsonLookup metadata "htmlPath")
    let c := fragmentReadFile fsys directory metadata (jsonLookup metadata "cssPath")
    let j := fragmentReadFile fsys directory metadata (jsonLookup metadata "jsPath")
    match _getFramentConfiguration fsys directory (jsonLookup metadata "configurationPath") with
    | .error e => (.error e, h.2 ++ c.2 ++ j.2)
    | .ok configuration =>
      (.ok { slug := FPath.basename directory, metadata,
             html := h.1, css := c.1, js := j.1, configuration },
        h.2 ++ c.2 ++ j.2)

/-- The `.map` callback of `_getCollectionFragmentCompositions`. -/
def buildComposition (fsys : FS) (directory : FPath) :
    Except JsError FragmentComposition × List LogEntry :=
  match _readJSONSync fsys (resolvePath directory "fragment-composition.json") with
  | .error e => (.error e, [])
  | .ok metadata =>
    let r := compositionReadFile fsys directory metadata
      (jsonLookup metadata "fragmentCompositionDefinitionPath")
    (.ok { slug := FPath.basename directory, metadata, definitionData := r.1 }, r.2)

/-- The `.map` callback of `_getPageTemplates`: `metadata` keeps only `name`
and the derived sibling `page-definition.json` path; `definitionData` is the
re-stringified parse of that sibling, read by `_readJSONSync` with no
try/catch, so its failure propagates. -/
def buildPageTemplate (fsys : FS) (directory : FPath) :
    Except JsError PageTemplate :=
  match _readJSONSync fsys (resolvePath directory "page-template.json") with
  | .error e => .error e
  | .ok metadata =>
    match _readJSONSync fsys (resolvePath directory "page-definition.json") with
    | .error e => .error e
    | .ok defJson =>
      .ok { slug := FPath.basename directory,
            metadata := { name := jsonLookup metadata "name",
                          pageTemplateDefinitionPath :=
                            resolvePath directory "page-definition.json" },
            definitionData := Json.stringify defJson }

/-- The `.map` stage over the scanned directories: callbacks run left to
right; a thrown callback aborts the whole aggregation, keeping the log
entries emitted so far. -/
def buildAll {α : Type} (build : FPath → Except JsError α × List LogEntry) :
    List FPath → Except JsError (List α) × List LogEntry
  | [] => (.ok [], [])
  | d :: rest =>
    match build d with
    | (.error e, l) => (.error e, l)
    | (.ok x, l) =>
      match buildAll build rest with
      | (.error e, ls) => (.error e, l ++ ls)
      | (.ok xs, ls) => (.ok (x :: xs), l ++ ls)

/-- `_getCollectionFragments(collectionDirectory)`. -/
def _getCollectionFragments (fsys : FS) (collectionDirectory : FPath) :
    Except JsError (List Fragment) × List LogEntry :=
  let s := scanDirs fsys collectionDirectory "fragment.json" fragmentIgnoredMsg
  let b := buildAll (buildFragment fsys) s.1
  (b.1, s.2 ++ b.2)

/-- `_getCollectionFragmentCompositions(collectionDirectory)`. -/
def _getCollectionFragmentCompositions (fsys : FS) (collectionDirectory : FPath) :
    Except JsError (List FragmentComposition) × List LogEntry :=
  let s := scanDirs fsys collectionDirectory "fragment-composition.json" compositionIgnoredMsg
  let b := buildAll (buildComposition fsys) s.1
  (b.1, s.2 ++ b.2)

/-- The `.map` callback of `_getProjectCollections`: re-read the marker, then
assemble compositions and fragments scoped to the collection directory. -/
def buildCollection (fsys : FS) (directory : FPath) :
    Except JsError Collection × List LogEntry :=
  match _readJSONSync fsys (resolvePath directory "collection.json") with
  | .error e => (.error e, [])
  | .ok metadata =>
    match _getCollectionFragmentCompositions fsys directory with
    | (.error e, l) => (.error e, l)
    | (.ok fragmentCompositions, l) =>
      match _getCollectionFragments fsys directory with
      | (.error e, l2) => (.error e, l ++ l2)
      | (.ok fragments, l2) =>
        (.ok { slug := FPath.basename directory,
               fragmentCollectionId := FPath.basename directory,
               metadata, fragmentCompositions, fragments },
          l ++ l2)

/-- `_getProjectCollections(basePath)`: scan `basePath/src/*` for
`collection.json` markers, then build each surviving collection. -/
def _getProjectCollections (fsys : FS) (basePath : FPath) :
    Except JsError (List Collection) × List LogEntry :=
  let s := scanDirs fsys (basePath ++ ["src"]) "collection.json" collectionIgnoredMsg
  let b := buildAll (buildCollection fsys) s.1
  (b.1, s.2 ++ b.2)

/-- `_getPageTemplates(basePath)`: scan `basePath/src/*` for
`page-template.json` markers, then build each surviving page template
(whose callback emits no logs). -/
def _getPageTemplates (fsys : FS) (basePath : FPath) :
    Except JsError (List PageTemplate) × List LogEntry :=
  let s := scanDirs fsys (basePath ++ ["src"]) "page-template.json" pageTemplateIgnoredMsg
  let b := buildAll (fun d => (buildPageTemplate fsys d, [])) s.1
  (b.1, s.2 ++ b.2)

/-- `getProjectContent(basePath)`, the exported entry point.  The object
literal evaluates `project` (the package descriptor, no try/catch), then
`collections`, then `pageTemplates`; any throw aborts the whole call. -/
def getProjectContent (fsys : FS) (basePath : FPath) :
    Except JsError Project × List LogEntry :=
  match _readJSONSync fsys (resolvePath basePath "package.json") with
  | .error e => (.error e, [])
  | .ok project =>
    match _getProjectCollections fsys basePath with
    | (.error e, l) => (.error e, l)
    | (.ok collections, l) =>
      match _getPageTemplates fsys basePath with
      | (.error e, l2) => (.error e, l ++ l2)
      | (.ok pageTemplates, l2) =>
        (.ok { basePath, project, collections, pageTemplates }, l ++ l2)

/-! ### Concrete filesystem fixtures used by witnesses and counterexamples -/

/-- A project whose valid `page-template.json` has no sibling
`page-definition.json`. -/
def fsNoDef : FS := ⟨[
  (["p", "package.json"], .file "\x7b\x7d"),
  (["p", "src", "tpl", "page-template.json"], .file "\x7b\"name\":\"t\"\x7d")]⟩

/-- A `src` tree with one valid collection marker and one malformed sibling. -/
def fs3 : FS := ⟨[
  (["p", "src", "good", "collection.json"], .file "\x7b\x7d"),
  (["p", "src", "bad", "collection.json"], .file "nope")]⟩

/-- A fragment directory whose metadata points its configuration at a missing
file, next to an existing `index.html`. -/
def fs4 : FS := ⟨[
  (["p", "src", "c", "f", "fragment.json"],
    .file "\x7b\"configurationPath\":\"missing.json\"\x7d"),
  (["p", "src", "c", "f", "index.html"], .file "<div/>"),
  (["p", "src", "c", "f", "present.json"], .file "cfg-text")]⟩

/-- A page template directory with marker and definition files. -/
def fs5 : FS := ⟨[
  (["p", "src", "t", "page-template.json"], .file "\x7b\"name\":\"tpl\"\x7d"),
  (["p", "src", "t", "page-definition.json"], .file " \x7b\"a\" : \"b\"\x7d ")]⟩

/-- A fragment whose `htmlPath` names a missing file but whose `cssPath`
exists; `fs6b` is the same tree with the html file added. -/
def fs6a : FS := ⟨[
  (["p", "src", "c", "f", "fragment.json"],
    .file "\x7b\"htmlPath\":\"index.html\",\"cssPath\":\"styles.css\"\x7d"),
  (["p", "src", "c", "f", "styles.css"], .file ".a\x7bcolor:red\x7d")]⟩

def fs6b : FS := ⟨(["p", "src", "c", "f", "index.html"], .file "<div/>") :: fs6a.entries⟩

/-- A base directory holding only a valid package descriptor. -/
def fs7 : FS := ⟨[(["q", "package.json"], .file "\x7b\"name\":\"proj\"\x7d")]⟩

/-- A full valid project tree: one collection holding one fragment and one
composition, one page template. -/
def fs8 : FS := ⟨[
  (["p", "package.json"], .file "\x7b\x7d"),
  (["p", "src", "col", "collection.json"], .file "\x7b\"name\":\"c\"\x7d"),
  (["p", "src", "col", "frag", "fragment.json"], .file "\x7b\x7d"),
  (["p", "src", "col", "comp", "fragment-composition.json"], .file "\x7b\x7d"),
  (["p", "src", "tpl", "page-template.json"], .file "\x7b\"name\":\"t\"\x7d"),
  (["p", "src", "tpl", "page-definition.json"], .file "\x7b\x7d")]⟩

/-- A valid project whose fragment's `configurationPath` resolves to an
existing directory, which `fs.readFileSync` cannot read as a text file. -/
def fs9 : FS := ⟨[
  (["p", "package.json"], .file "\x7b\x7d"),
  (["p", "src", "col", "collection.json"], .file "\x7b\x7d"),
  (["p", "src", "col", "frag", "fragment.json"],
    .file "\x7b\"configurationPath\":\"cfg\"\x7d"),
  (["p", "src", "col", "frag", "cfg"], .dir)]⟩

/-- A tree whose single `src` child carries both a collection marker and a
page-template marker, and whose single grandchild carries both a fragment
marker and a fragment-composition marker. -/
def fs10 : FS := ⟨[
  (["p", "package.json"], .file "\x7b\x7d"),
  (["p", "src", "both", "collection.json"], .file "\x7b\x7d"),
  (["p", "src", "both", "page-template.json"], .file "\x7b\"name\":\"pt\"\x7d"),
  (["p", "src", "both", "page-definition.json"], .file "\x7b\x7d"),
  (["p", "src", "both", "dual", "fragment.json"], .file "\x7b\x7d"),
  (["p", "src", "both", "dual", "fragment-composition.json"], .file "\x7b\x7d")]⟩

/-- The collection aggregated from `fs10`'s dual-marker directory. -/
def col10 : Collection where
  slug := "both"
  fragmentCollectionId := "both"
  metadata := .obj []
  fragmentCompositions := [{ slug := "dual", metadata := .obj [], definitionData := "" }]
  fragments := [
    { slug := "dual", metadata := .obj [], html := "", css := "", js := "",
      configuration := "" }]

/-- The project aggregated from `fs10`. -/
def proj10 : Project where
  basePath := ["p"]
  project := .obj []
  collections := [col10]
  pageTemplates := [
    { slug := "both"
      metadata :=
        { name := some (.str "pt")
          pageTemplateDefinitionPath := ["p", "src", "both", "page-definition.json"] }
      definitionData := Json.stringify (.obj []) }]

/-- The project aggregated from `fs8`. -/
def proj8 : Project where
  basePath := ["p"]
  project := .obj []
  collections := [
    { slug := "col"
      fragmentCollectionId := "col"
      metadata := .obj [("name", .str "c")]
      fragmentCompositions := [{ slug := "comp", metadata := .obj [], definitionData := "" }]
      fragments := [
        { slug := "frag", metadata := .obj [], html := "", css := "", js := "",
          configuration := "" }] }]
  pageTemplates := [
    { slug := "tpl"
      metadata :=
        { name := some (.str "t")
          pageTemplateDefinitionPath := ["p", "src", "tpl", "page-definition.json"] }
      definitionData := Json.stringify (.obj []) }]

/-! ### Supporting lemmas -/

theorem lookup_cons (q : FPath) (v : FData) (es : List (FPath × FData)) (p : FPath) :
    FS.lookup ⟨(q, v) :: es⟩ p = if q = p then some v else FS.lookup ⟨es⟩ p := by
  by_cases h : q = p
  · subst h
    simp [FS.lookup, List.find?]
  · have hb : (q == p) = false := by simpa using h
    simp [FS.lookup, List.find?, hb, h]

/-- Membership in the scan's `.filter` output: kept iff globbed and the marker
parses. -/
theorem filterDirs_mem (fsys : FS) (marker : String) (msg : FPath → String)
    (dirs : List FPath) (d : FPath) :
    d ∈ (filterDirs fsys marker msg dirs).1 ↔
      d ∈ dirs ∧ isOkE (_readJSONSync fsys (resolvePath d marker)) = true := by
  induction dirs with
  | nil => simp [filterDirs]
  | cons d' rest ih =>
    cases h : _readJSONSync fsys (resolvePath d' marker) with
    | ok j =>
      simp only [filterDirs, h, List.mem_cons, ih]
      constructor
      · rintro (rfl | ⟨hm, hok⟩)
        · exact ⟨Or.inl rfl, by simp [h, isOkE]⟩
        · exact ⟨Or.inr hm, hok⟩
      · rintro ⟨rfl | hm, hok⟩
        · exact Or.inl rfl
        · exact Or.inr ⟨hm, hok⟩
    | error e =>
      simp only [filterDirs, h, List.mem_cons, ih]
      constructor
      · rintro ⟨hm, hok⟩
        exact ⟨Or.inr hm, hok⟩
      · rintro ⟨rfl | hm, hok⟩
        · rw [h] at hok
          simp [isOkE] at hok
        · exact ⟨hm, hok⟩

/-- A dropped directory gets its `ignored` log entry. -/
theorem filterDirs_log (fsys : FS) (marker : String) (msg : FPath → String)
    (dirs : List FPath) (d : FPath) (hd : d ∈ dirs)
    (hbad : isOkE (_readJSONSync fsys (resolvePath d marker)) = false) :
    (⟨msg d, "LOG_LEVEL_ERROR", false⟩ : LogEntry) ∈ (filterDirs fsys marker msg dirs).2 := by
  induction dirs with
  | nil => simp at hd
  | cons d' rest ih =>
    rcases List.mem_cons.mp hd with rfl | hm
    · cases h : _readJSONSync fsys (resolvePath d marker) with
      | ok j => rw [h] at hbad; simp [isOkE] at hbad
      | error e => simp [filterDirs, h]
    · cases h : _readJSONSync fsys (resolvePath d' marker) with
      | ok j => simpa [filterDirs, h] using ih hm
      | error e => simp [filterDirs, h, ih hm]

/-- Every scanned directory contributes an element to a successful `.map`. -/
theorem buildAll_ok_mem {α : Type} (build : FPath → Except JsError α × List LogEntry)
    (dirs : List FPath) (xs : List α) (hok : (buildAll build dirs).1 = .ok xs)
    (d : FPath) (hd : d ∈ dirs) : ∃ x, x ∈ xs ∧ (build d).1 = .ok x := by
  induction dirs generalizing xs with
  | nil => simp at hd
  | cons d' rest ih =>
    cases hb : build d' with
    | mk r l =>
      cases r with
      | error e => simp [buildAll, hb] at hok
      | ok x =>
        cases hr : buildAll build rest with
        | mk rr lr =>
          cases rr with
          | error e => simp [buildAll, hb, hr] at hok
          | ok xs' =>
            simp only [buildAll, hb, hr] at hok
            cases hok
            rcases List.mem_cons.mp hd with rfl | hm
            · exact ⟨x, List.mem_cons_self .., by simp [hb]⟩
            · obtain ⟨y, hy, hby⟩ := ih xs' (by rw [hr]) hm
              exact ⟨y, List.mem_cons_of_mem _ hy, hby⟩

/-- Every element of a successful `.map` comes from some scanned directory. -/
theorem buildAll_mem_rev {α : Type} (build : FPath → Except JsError α × List LogEntry)
    (dirs : List FPath) (xs : List α) (hok : (buildAll build dirs).1 = .ok xs)
    (x : α) (hx : x ∈ xs) : ∃ d, d ∈ dirs ∧ (build d).1 = .ok x := by
  induction dirs generalizing xs with
  | nil =>
    simp only [buildAll] at hok
    cases hok
    simp at hx
  | cons d' rest ih =>
    cases hb : build d' with
    | mk r l =>
      cases r with
      | error e => simp [buildAll, hb] at hok
      | ok x' =>
        cases hr : buildAll build rest with
        | mk rr lr =>
          cases rr with
          | error e => simp [buildAll, hb, hr] at hok
          | ok xs' =>
            simp only [buildAll, hb, hr] at hok
            cases hok
            rcases List.mem_cons.mp hx with rfl | hm
            · exact ⟨d', List.mem_cons_self .., by simp [hb]⟩
            · obtain ⟨d0, hd0, hb0⟩ := ih xs' (by rw [hr]) hm
              exact ⟨d0, List.mem_cons_of_mem _ hd0, hb0⟩

/-- A successful `.map` means every callback succeeded. -/
theorem buildAll_ok_all {α : Type} (build : FPath → Except JsError α × List LogEntry)
    (dirs : List FPath) (xs : List α) (hok : (buildAll build dirs).1 = .ok xs)
    (d : FPath) (hd : d ∈ dirs) : isOkE (build d).1 = true := by
  obtain ⟨x, _, hx⟩ := buildAll_ok_mem build dirs xs hok d hd
  rw [hx]
  rfl

/-- A successfully built fragment's slug is its directory's basename. -/
theorem buildFragment_ok_slug (fsys : FS) (d : FPath) (fr : Fragment)
    (h : (buildFragment fsys d).1 = .ok fr) : fr.slug = FPath.basename d := by
  unfold buildFragment at h
  cases hm : _readJSONSync fsys (resolvePath d "fragment.json") with
  | error e => rw [hm] at h; simp at h
  | ok metadata =>
    rw [hm] at h
    cases hc : _getFramentConfiguration fsys d (jsonLookup metadata "configurationPath") with
    | error e => simp only [hc] at h; simp at h
    | ok cfg =>
      simp only [hc] at h
      cases h
      rfl

/-- A successfully built composition's slug is its directory's basename. -/
theorem buildComposition_ok_slug (fsys : FS) (d : FPath) (fc : FragmentComposition)
    (h : (buildComposition fsys d).1 = .ok fc) : fc.slug = FPath.basename d := by
  unfold buildComposition at h
  cases hm : _readJSONSync fsys (resolvePath d "fragment-composition.json") with
  | error e => rw [hm] at h; simp at h
  | ok metadata =>
    rw [hm] at h
    cases h
    rfl

/-- A successfully built page template's slug is its directory's basename. -/
theorem buildPageTemplate_ok_slug (fsys : FS) (d : FPath) (pt : PageTemplate)
    (h : buildPageTemplate fsys d = .ok pt) : pt.slug = FPath.basename d := by
  unfold buildPageTemplate at h
  cases hm : _readJSONSync fsys (resolvePath d "page-template.json") with
  | error e => rw [hm] at h; simp at h
  | ok metadata =>
    rw [hm] at h
    cases hd : _readJSONSync fsys (resolvePath d "page-definition.json") with
    | error e => rw [hd] at h; simp at h
    | ok defJson =>
      rw [hd] at h
      cases h
      rfl

/-- A page template only builds when its `page-definition.json` read+parse
succeeded: that file's failure is never caught. -/
theorem buildPageTemplate_ok_defRead (fsys : FS) (d : FPath) (pt : PageTemplate)
    (h : buildPageTemplate fsys d = .ok pt) :
    isOkE (_readJSONSync fsys (resolvePath d "page-definition.json")) = true := by
  unfold buildPageTemplate at h
  cases hm : _readJSONSync fsys (resolvePath d "page-template.json") with
  | error e => rw [hm] at h; simp at h
  | ok metadata =>
    rw [hm] at h
    cases hd : _readJSONSync fsys (resolvePath d "page-definition.json") with
    | error e => rw [hd] at h; simp at h
    | ok defJson => rfl

/-- Decompose a successfully built collection. -/
theorem buildCollection_ok_shape (fsys : FS) (d : FPath) (c : Collection)
    (h : (buildCollection fsys d).1 = .ok c) :
    c.slug = FPath.basename d ∧ c.fragmentCollectionId = FPath.basename d ∧
      (_getCollectionFragmentCompositions fsys d).1 = .ok c.fragmentCompositions ∧
      (_getCollectionFragments fsys d).1 = .ok c.fragments := by
  unfold buildCollection at h
  cases hm : _readJSONSync fsys (resolvePath d "collection.json") with
  | error e => rw [hm] at h; simp at h
  | ok metadata =>
    rw [hm] at h
    cases hcomp : _getCollectionFragmentCompositions fsys d with
    | mk rc lc =>
      cases rc with
      | error e => simp [hcomp] at h
      | ok comps =>
        cases hfr : _getCollectionFragments fsys d with
        | mk rf lf =>
          cases rf with
          | error e => simp [hcomp, hfr] at h
          | ok frs =>
            simp only [hcomp, hfr] at h
            cases h
            exact ⟨rfl, rfl, rfl, rfl⟩

/-- Decompose a successful `getProjectContent` call. -/
theorem getProjectContent_ok (fsys : FS) (basePath : FPath) (proj : Project)
    (h : (getProjectContent fsys basePath).1 = .ok proj) :
    _readJSONSync fsys (resolvePath basePath "package.json") = .ok proj.project ∧
      proj.basePath = basePath ∧
      (_getProjectCollections fsys basePath).1 = .ok proj.collections ∧
      (_getPageTemplates fsys basePath).1 = .ok proj.pageTemplates := by
  unfold getProjectContent at h
  cases hp : _readJSONSync fsys (resolvePath basePath "package.json") with
  | error e => rw [hp] at h; simp at h
  | ok pj =>
    rw [hp] at h
    cases hc : _getProjectCollections fsys basePath with
    | mk rc lc =>
      cases rc with
      | error e => simp [hc] at h
      | ok cols =>
        cases hpt : _getPageTemplates fsys basePath with
        | mk rp lp =>
          cases rp with
          | error e => simp [hc, hpt] at h
          | ok pts =>
            simp only [hc, hpt] at h
            cases h
            exact ⟨rfl, rfl, rfl, rfl⟩

/-- Looking up any path other than the added one is unchanged when a file is
added in front of a filesystem. -/
theorem lookup_of_cons (fs1 fs2 : FS) (hp : FPath) (cont : String)
    (hfs2 : fs2.entries = (hp, .file cont) :: fs1.entries) (p : FPath) (hne : p ≠ hp) :
    fs2.lookup p = fs1.lookup p := by
  have h1 : fs2.lookup p = FS.lookup ⟨(hp, .file cont) :: fs1.entries⟩ p := by
    unfold FS.lookup
    rw [hfs2]
  rw [h1, lookup_cons, if_neg (fun h => hne h.symm)]

/-- `_readJSONSync` at an untouched path is unchanged by the added file. -/
theorem readJSON_of_cons (fs1 fs2 : FS) (hp : FPath) (cont : String)
    (hfs2 : fs2.entries = (hp, .file cont) :: fs1.entries) (p : FPath) (hne : p ≠ hp) :
    _readJSONSync fs2 p = _readJSONSync fs1 p := by
  unfold _readJSONSync FS.readFileSyncE
  rw [lookup_of_cons fs1 fs2 hp cont hfs2 p hne]

/-- A fragment content load whose resolved path is not the added file is
unchanged by the added file. -/
theorem fragmentReadFile_of_cons (fs1 fs2 : FS) (hp : FPath) (cont : String)
    (hfs2 : fs2.entries = (hp, .file cont) :: fs1.entries)
    (d : FPath) (metadata : Json) (v : Option Json)
    (hne : ∀ s, v = some (.str s) → resolvePath d s ≠ hp) :
    fragmentReadFile fs2 d metadata v = fragmentReadFile fs1 d metadata v := by
  cases v with
  | none => rfl
  | some j =>
    cases j with
    | null => rfl
    | bool b => rfl
    | num n => rfl
    | arr es => rfl
    | obj ms => rfl
    | str s =>
      have hl := lookup_of_cons fs1 fs2 hp cont hfs2 (resolvePath d s) (hne s rfl)
      simp only [fragmentReadFile, readFileCaught, FS.readFileSyncE, hl]

/-- The configuration load at untouched paths is unchanged by the added file. -/
theorem configuration_of_cons (fs1 fs2 : FS) (hp : FPath) (cont : String)
    (hfs2 : fs2.entries = (hp, .file cont) :: fs1.entries)
    (d : FPath) (v : Option Json)
    (hne : ∀ s, v = some (.str s) → resolvePath d s ≠ hp) :
    _getFramentConfiguration fs2 d v = _getFramentConfiguration fs1 d v := by
  cases v with
  | none => rfl
  | some j =>
    cases j with
    | null => rfl
    | bool b => rfl
    | num n => rfl
    | arr es => rfl
    | obj ms => rfl
    | str s =>
      have hl := lookup_of_cons fs1 fs2 hp cont hfs2 (resolvePath d s) (hne s rfl)
      simp only [_getFramentConfiguration, FS.existsSync, FS.readFileSyncE, hl]

/-! ### The claims -/

/-- **C2.** For every base path, aggregation raises and aborts the whole run
if the project's `package.json` is missing or unparsable (the thrown error is
returned unchanged and nothing else runs), and likewise any directory whose
valid `page-template.json` lacks a parseable sibling `page-definition.json`
makes the whole aggregation fail rather than silently omitting that
template. -/
theorem c2_fatal_package_and_page_definition (fsys : FS) (basePath : FPath) :
    (∀ e, _readJSONSync fsys (resolvePath basePath "package.json") = .error e →
       getProjectContent fsys basePath = (.error e, [])) ∧
    (∀ d, d ∈ (scanDirs fsys (basePath ++ ["src"]) "page-template.json"
          pageTemplateIgnoredMsg).1 →
       isOkE (_readJSONSync fsys (resolvePath d "page-definition.json")) = false →
       isOkE (getProjectContent fsys basePath).1 = false) := by
  constructor
  · intro e he
    simp [getProjectContent, he]
  · intro d hd hbad
    cases hp : _readJSONSync fsys (resolvePath basePath "package.json") with
    | error e => simp [getProjectContent, hp, isOkE]
    | ok pj =>
      cases hc : _getProjectCollections fsys basePath with
      | mk rc lc =>
        cases rc with
        | error e => simp [getProjectContent, hp, hc, isOkE]
        | ok cols =>
          cases hpt : _getPageTemplates fsys basePath with
          | mk rp lp =>
            cases rp with
            | error e => simp [getProjectContent, hp, hc, hpt, isOkE]
            | ok pts =>
              exfalso
              have hb : (buildAll (fun d0 => (buildPageTemplate fsys d0, []))
                  (scanDirs fsys (basePath ++ ["src"]) "page-template.json"
                    pageTemplateIgnoredMsg).1).1 = .ok pts := by
                have := congrArg Prod.fst hpt
                simpa [_getPageTemplates] using this
              obtain ⟨pt, _, hptok⟩ :=
                buildAll_ok_mem (fun d0 => (buildPageTemplate fsys d0, [])) _ pts hb d hd
              have := buildPageTemplate_ok_defRead fsys d pt hptok
              rw [this] at hbad
              exact absurd hbad (by simp)

/-- Witness for C2: with an empty filesystem the missing `package.json` error
propagates out of `getProjectContent`; on `fsNoDef`, whose page template has
no `page-definition.json`, the whole aggregation fails. -/
theorem c2_witness :
    _readJSONSync ⟨[]⟩ (resolvePath ["q"] "package.json") =
        .error (.enoent ["q", "package.json"]) ∧
      getProjectContent ⟨[]⟩ ["q"] = (.error (.enoent ["q", "package.json"]), []) ∧
      (["p", "src", "tpl"] ∈ (scanDirs fsNoDef (["p"] ++ ["src"]) "page-template.json"
          pageTemplateIgnoredMsg).1 ∧
        isOkE (_readJSONSync fsNoDef
          (resolvePath ["p", "src", "tpl"] "page-definition.json")) = false ∧
        isOkE (getProjectContent fsNoDef ["p"]).1 = false) :=
  ⟨rfl,
    (c2_fatal_package_and_page_definition ⟨[]⟩ ["q"]).1 _ rfl,
    by decide,
    rfl,
    (c2_fatal_package_and_page_definition fsNoDef ["p"]).2 ["p", "src", "tpl"]
      (by decide) rfl⟩

/-- **C3.** For every scan (the four entity families all run this scanner with
their marker and message), a globbed immediate child directory is kept iff its
marker parses; a malformed one is excluded, its `ignored` error is logged, and
the remaining siblings are still returned; a marker parsing as `{}` is kept;
zero glob matches yield the empty sequence (and no logs), not an error. -/
theorem c3_scan_drops_only_malformed (fsys : FS) (base : FPath) (marker : String)
    (msg : FPath → String) :
    (fsys.glob base marker = [] → scanDirs fsys base marker msg = ([], [])) ∧
    (∀ d, d ∈ (scanDirs fsys base marker msg).1 ↔
       d ∈ (fsys.glob base marker).map List.dropLast ∧
         isOkE (_readJSONSync fsys (resolvePath d marker)) = true) ∧
    (∀ d, d ∈ (fsys.glob base marker).map List.dropLast →
       isOkE (_readJSONSync fsys (resolvePath d marker)) = false →
       (⟨msg d, "LOG_LEVEL_ERROR", false⟩ : LogEntry) ∈ (scanDirs fsys base marker msg).2) ∧
    (∀ d, d ∈ (fsys.glob base marker).map List.dropLast →
       fsys.lookup (resolvePath d marker) = some (.file "\x7b\x7d") →
       d ∈ (scanDirs fsys base marker msg).1) := by
  refine ⟨?_, ?_, ?_, ?_⟩
  · intro hglob
    simp [scanDirs, hglob, filterDirs]
  · intro d
    exact filterDirs_mem fsys marker msg _ d
  · intro d hd hbad
    exact filterDirs_log fsys marker msg _ d hd hbad
  · intro d hd hfile
    refine (filterDirs_mem fsys marker msg _ d).mpr ⟨hd, ?_⟩
    unfold _readJSONSync FS.readFileSyncE
    rw [hfile]
    rfl

/-- Witness for C3 on `fs3`: the valid sibling survives the scan, the
malformed one is dropped and logged, and `{}` is kept. -/
theorem c3_witness :
    (["p", "src", "good"] ∈
        (scanDirs fs3 ["p", "src"] "collection.json" collectionIgnoredMsg).1 ∧
      ["p", "src", "bad"] ∉
        (scanDirs fs3 ["p", "src"] "collection.json" collectionIgnoredMsg).1 ∧
      (⟨collectionIgnoredMsg ["p", "src", "bad"], "LOG_LEVEL_ERROR", false⟩ : LogEntry) ∈
        (scanDirs fs3 ["p", "src"] "collection.json" collectionIgnoredMsg).2) := by
  have h := c3_scan_drops_only_malformed fs3 ["p", "src"] "collection.json"
    collectionIgnoredMsg
  refine ⟨?_, ?_, ?_⟩
  · exact h.2.2.2 ["p", "src", "good"] (by decide) rfl
  · intro hmem
    have := (h.2.1 ["p", "src", "bad"]).mp hmem
    exact absurd this.2 (by decide)
  · exact h.2.2.1 ["p", "src", "bad"] (by decide) rfl

/-- **C4.** The configuration field is `""` both when `configurationPath` is
absent and when it names a non-existent file; the configuration loader emits
no log entry at all (a fragment's logs are exactly those of the three
`readFile` calls for html/css/js), while an html/css/js path naming a missing
file does log; and a set path whose file exists yields its raw contents. -/
theorem c4_configuration_silent_default (fsys : FS) (directory : FPath) :
    (_getFramentConfiguration fsys directory none = .ok "") ∧
    (∀ s, fsys.existsSync (resolvePath directory s) = false →
       _getFramentConfiguration fsys directory (some (.str s)) = .ok "") ∧
    (∀ s cont, s ≠ "" → fsys.lookup (resolvePath directory s) = some (.file cont) →
       _getFramentConfiguration fsys directory (some (.str s)) = .ok cont) ∧
    (∀ metadata, _readJSONSync fsys (resolvePath directory "fragment.json") = .ok metadata →
       (buildFragment fsys directory).2 =
         (fragmentReadFile fsys directory metadata (jsonLookup metadata "htmlPath")).2 ++
           (fragmentReadFile fsys directory metadata (jsonLookup metadata "cssPath")).2 ++
           (fragmentReadFile fsys directory metadata (jsonLookup metadata "jsPath")).2) ∧
    (∀ metadata s, fsys.lookup (resolvePath directory s) = none →
       (fragmentReadFile fsys directory metadata (some (.str s))).2.length = 2) := by
  refine ⟨rfl, ?_, ?_, ?_, ?_⟩
  · intro s hex
    by_cases hs : s = ""
    · subst hs
      rfl
    · have ht : jsTruthy (some (.str s)) = true := by simp [jsTruthy, hs]
      simp [_getFramentConfiguration, ht, hex]
  · intro s cont hs hfile
    have ht : jsTruthy (some (.str s)) = true := by simp [jsTruthy, hs]
    have hex : fsys.existsSync (resolvePath directory s) = true := by
      simp [FS.existsSync, hfile]
    simp [_getFramentConfiguration, ht, hex, FS.readFileSyncE, hfile]
  · intro metadata hmeta
    cases hc : _getFramentConfiguration fsys directory
        (jsonLookup metadata "configurationPath") with
    | error e => simp only [buildFragment, hmeta, hc]
    | ok cfg => simp only [buildFragment, hmeta, hc]
  · intro metadata s hmiss
    simp [fragmentReadFile, readFileCaught, FS.readFileSyncE, hmiss]

/-- Witness for C4 on `fs4`: missing-file configuration and present-file
configuration behave as claimed, the fragment's logs are exactly the three
loaders' logs, and a missing html file logs two entries. -/
theorem c4_witness :
    (_getFramentConfiguration fs4 ["p", "src", "c", "f"] none = .ok "") ∧
      (fs4.existsSync (resolvePath ["p", "src", "c", "f"] "missing.json") = false ∧
        _getFramentConfiguration fs4 ["p", "src", "c", "f"]
          (some (.str "missing.json")) = .ok "") ∧
      (_getFramentConfiguration fs4 ["p", "src", "c", "f"]
          (some (.str "present.json")) = .ok "cfg-text") ∧
      (fragmentReadFile fs4 ["p", "src", "c", "f"] (.obj [])
          (some (.str "absent.html"))).2.length = 2 := by
  have h := c4_configuration_silent_default fs4 ["p", "src", "c", "f"]
  refine ⟨h.1, ⟨rfl, h.2.1 "missing.json" rfl⟩, ?_, ?_⟩
  · exact h.2.2.1 "present.json" "cfg-text" (by decide) rfl
  · exact h.2.2.2.2 (.obj []) "absent.html" rfl

/-- **C5.** A directory with a valid `page-template.json` yields a page
template whose metadata is exactly the marker's `name` plus the derived
absolute path of the sibling `page-definition.json` (not read from the
marker), and whose `definitionData` is the JSON re-stringification of the
parse of that sibling file's contents. -/
theorem c5_page_template_shape (fsys : FS) (d : FPath) (m : Json) (raw : String)
    (j : Json)
    (hm : _readJSONSync fsys (resolvePath d "page-template.json") = .ok m)
    (hraw : fsys.lookup (resolvePath d "page-definition.json") = some (.file raw))
    (hj : Json.parse raw = some j) :
    buildPageTemplate fsys d = .ok
      { slug := FPath.basename d,
        metadata := { name := jsonLookup m "name",
                      pageTemplateDefinitionPath := resolvePath d "page-definition.json" },
        definitionData := Json.stringify j } := by
  have hdef : _readJSONSync fsys (resolvePath d "page-definition.json") = .ok j := by
    simp only [_readJSONSync, FS.readFileSyncE, hraw, hj]
  simp only [buildPageTemplate, hm, hdef]

/-- Witness for C5 on `fs5`: the page template built from `/p/src/t`. -/
theorem c5_witness :
    _readJSONSync fs5 (resolvePath ["p", "src", "t"] "page-template.json") =
        .ok (.obj [("name", .str "tpl")]) ∧
      fs5.lookup (resolvePath ["p", "src", "t"] "page-definition.json") =
        some (.file " \x7b\"a\" : \"b\"\x7d ") ∧
      Json.parse " \x7b\"a\" : \"b\"\x7d " = some (.obj [("a", .str "b")]) ∧
      buildPageTemplate fs5 ["p", "src", "t"] = .ok
        { slug := FPath.basename ["p", "src", "t"],
          metadata := { name := jsonLookup (.obj [("name", .str "tpl")]) "name",
                        pageTemplateDefinitionPath :=
                          resolvePath ["p", "src", "t"] "page-definition.json" },
          definitionData := Json.stringify (.obj [("a", .str "b")]) } :=
  ⟨rfl, rfl, rfl, c5_page_template_shape fs5 ["p", "src", "t"] _ _ _ rfl rfl rfl⟩

/-- **C7.** With a valid package descriptor, `getProjectContent basePath`
returns a `Project` whose `basePath` is the given path, whose `project` is
the parsed `package.json`, and whose `collections`/`pageTemplates` are the
results of the two scans of `basePath/src/*`; with zero matching `src/*`
subdirectories both sequences are empty. -/
theorem c7_aggregate_contract (fsys : FS) (basePath : FPath) (pj : Json)
    (hpkg : _readJSONSync fsys (resolvePath basePath "package.json") = .ok pj) :
    (∀ proj, (getProjectContent fsys basePath).1 = .ok proj →
       proj.basePath = basePath ∧ proj.project = pj ∧
       (_getProjectCollections fsys basePath).1 = .ok proj.collections ∧
       (_getPageTemplates fsys basePath).1 = .ok proj.pageTemplates) ∧
    (fsys.glob (basePath ++ ["src"]) "collection.json" = [] →
     fsys.glob (basePath ++ ["src"]) "page-template.json" = [] →
       getProjectContent fsys basePath =
         (.ok { basePath := basePath, project := pj, collections := [],
                pageTemplates := [] }, [])) := by
  constructor
  · intro proj h
    obtain ⟨h1, h2, h3, h4⟩ := getProjectContent_ok fsys basePath proj h
    rw [hpkg] at h1
    exact ⟨h2, (Except.ok.inj h1).symm, h3, h4⟩
  · intro hg1 hg2
    have hs1 : scanDirs fsys (basePath ++ ["src"]) "collection.json"
        collectionIgnoredMsg = ([], []) := by
      simp [scanDirs, hg1, filterDirs]
    have hs2 : scanDirs fsys (basePath ++ ["src"]) "page-template.json"
        pageTemplateIgnoredMsg = ([], []) := by
      simp [scanDirs, hg2, filterDirs]
    simp [getProjectContent, hpkg, _getProjectCollections, _getPageTemplates,
      hs1, hs2, buildAll]

/-- Witness for C7 on `fs7`, a base directory with only a `package.json`. -/
theorem c7_witness :
    _readJSONSync fs7 (resolvePath ["q"] "package.json") =
        .ok (.obj [("name", .str "proj")]) ∧
      fs7.glob (["q"] ++ ["src"]) "collection.json" = [] ∧
      fs7.glob (["q"] ++ ["src"]) "page-template.json" = [] ∧
      getProjectContent fs7 ["q"] =
        (.ok { basePath := ["q"], project := .obj [("name", .str "proj")],
               collections := [], pageTemplates := [] }, []) :=
  ⟨rfl, rfl, rfl, (c7_aggregate_contract fs7 ["q"] _ rfl).2 rfl rfl⟩

/-- **C8.** In a successful aggregation every entity's slug is the basename of
the scanned directory it was built from, and every collection's
`fragmentCollectionId` equals its slug. -/
theorem c8_slug_is_basename (fsys : FS) (basePath : FPath) (proj : Project)
    (h : (getProjectContent fsys basePath).1 = .ok proj) :
    (∀ c, c ∈ proj.collections →
       c.fragmentCollectionId = c.slug ∧
       ∃ d, d ∈ (scanDirs fsys (basePath ++ ["src"]) "collection.json"
           collectionIgnoredMsg).1 ∧
         c.slug = FPath.basename d ∧
         (∀ fr, fr ∈ c.fragments →
            ∃ d2, d2 ∈ (scanDirs fsys d "fragment.json" fragmentIgnoredMsg).1 ∧
              fr.slug = FPath.basename d2) ∧
         (∀ fc, fc ∈ c.fragmentCompositions →
            ∃ d2, d2 ∈ (scanDirs fsys d "fragment-composition.json"
                compositionIgnoredMsg).1 ∧
              fc.slug = FPath.basename d2)) ∧
    (∀ pt, pt ∈ proj.pageTemplates →
       ∃ d, d ∈ (scanDirs fsys (basePath ++ ["src"]) "page-template.json"
           pageTemplateIgnoredMsg).1 ∧
         pt.slug = FPath.basename d) := by
  obtain ⟨hpkg, hbase, hcols, hpts⟩ := getProjectContent_ok fsys basePath proj h
  constructor
  · intro c hc
    have hb : (buildAll (buildCollection fsys)
        (scanDirs fsys (basePath ++ ["src"]) "collection.json"
          collectionIgnoredMsg).1).1 = .ok proj.collections := by
      simpa [_getProjectCollections] using hcols
    obtain ⟨d, hd, hcok⟩ := buildAll_mem_rev _ _ _ hb c hc
    obtain ⟨hslug, hid, hcomps, hfrs⟩ := buildCollection_ok_shape fsys d c hcok
    refine ⟨by rw [hid, hslug], d, hd, hslug, ?_, ?_⟩
    · intro fr hfr
      have hbf : (buildAll (buildFragment fsys)
          (scanDirs fsys d "fragment.json" fragmentIgnoredMsg).1).1 = .ok c.fragments := by
        simpa [_getCollectionFragments] using hfrs
      obtain ⟨d2, hd2, hfok⟩ := buildAll_mem_rev _ _ _ hbf fr hfr
      exact ⟨d2, hd2, buildFragment_ok_slug fsys d2 fr hfok⟩
    · intro fc hfc
      have hbc : (buildAll (buildComposition fsys)
          (scanDirs fsys d "fragment-composition.json" compositionIgnoredMsg).1).1 =
            .ok c.fragmentCompositions := by
        simpa [_getCollectionFragmentCompositions] using hcomps
      obtain ⟨d2, hd2, hcok2⟩ := buildAll_mem_rev _ _ _ hbc fc hfc
      exact ⟨d2, hd2, buildComposition_ok_slug fsys d2 fc hcok2⟩
  · intro pt hpt
    have hb : (buildAll (fun d0 => (buildPageTemplate fsys d0, []))
        (scanDirs fsys (basePath ++ ["src"]) "page-template.json"
          pageTemplateIgnoredMsg).1).1 = .ok proj.pageTemplates := by
      simpa [_getPageTemplates] using hpts
    obtain ⟨d, hd, hok⟩ := buildAll_mem_rev _ _ _ hb pt hpt
    exact ⟨d, hd, buildPageTemplate_ok_slug fsys d pt hok⟩

/-- Witness for C8 on the full fixture `fs8`. -/
theorem c8_witness :
    (getProjectContent fs8 ["p"]).1 = .ok proj8 ∧
      (∀ c, c ∈ proj8.collections → c.fragmentCollectionId = c.slug) := by
  have h : (getProjectContent fs8 ["p"]).1 = .ok proj8 := rfl
  exact ⟨h, fun c hc => ((c8_slug_is_basename fs8 ["p"] proj8 h).1 c hc).1⟩

/-- **C9.** There is an input on which aggregation raises because of a
fragment's configuration: on `fs9` the fragment's `configurationPath` is set
(truthy) and resolves to an existing entry that is a directory, so the
`fs.readFileSync` performed outside any try/catch throws `EISDIR`, and the
exception propagates out of the whole `getProjectContent` run instead of the
configuration degrading to `""`. -/
theorem c9_unreadable_configuration_aborts :
    jsTruthy (jsonLookup (.obj [("configurationPath", .str "cfg")])
        "configurationPath") = true ∧
      fs9.existsSync (resolvePath ["p", "src", "col", "frag"] "cfg") = true ∧
      fs9.lookup ["p", "src", "col", "frag", "cfg"] = some .dir ∧
      _getFramentConfiguration fs9 ["p", "src", "col", "frag"] (some (.str "cfg")) =
        .error (.eisdir ["p", "src", "col", "frag", "cfg"]) ∧
      (getProjectContent fs9 ["p"]).1 =
        .error (.eisdir ["p", "src", "col", "frag", "cfg"]) :=
  ⟨rfl, rfl, rfl, rfl, rfl⟩

/-- **C10.** Collections and page templates come from two independent scans of
`basePath/src/*`, so a directory scanned by both (valid `collection.json` and
valid `page-template.json`) contributes an entry to both sequences of a
successful aggregation; likewise, inside a collection, a directory carrying
both a valid `fragment.json` and a valid `fragment-composition.json`
contributes to both `fragments` and `fragmentCompositions`. -/
theorem c10_dual_marker_dirs (fsys : FS) (basePath : FPath) (proj : Project)
    (h : (getProjectContent fsys basePath).1 = .ok proj) :
    (∀ d, d ∈ (scanDirs fsys (basePath ++ ["src"]) "collection.json"
          collectionIgnoredMsg).1 →
       d ∈ (scanDirs fsys (basePath ++ ["src"]) "page-template.json"
          pageTemplateIgnoredMsg).1 →
       (∃ c, c ∈ proj.collections ∧ c.slug = FPath.basename d) ∧
       (∃ pt, pt ∈ proj.pageTemplates ∧ pt.slug = FPath.basename d)) ∧
    (∀ d c d2, (buildCollection fsys d).1 = .ok c →
       d2 ∈ (scanDirs fsys d "fragment.json" fragmentIgnoredMsg).1 →
       d2 ∈ (scanDirs fsys d "fragment-composition.json" compositionIgnoredMsg).1 →
       (∃ fr, fr ∈ c.fragments ∧ fr.slug = FPath.basename d2) ∧
       (∃ fc, fc ∈ c.fragmentCompositions ∧ fc.slug = FPath.basename d2)) := by
  obtain ⟨hpkg, hbase, hcols, hpts⟩ := getProjectContent_ok fsys basePath proj h
  constructor
  · intro d hdc hdp
    constructor
    · have hb : (buildAll (buildCollection fsys)
          (scanDirs fsys (basePath ++ ["src"]) "collection.json"
            collectionIgnoredMsg).1).1 = .ok proj.collections := by
        simpa [_getProjectCollections] using hcols
      obtain ⟨c, hc, hcok⟩ := buildAll_ok_mem _ _ _ hb d hdc
      exact ⟨c, hc, (buildCollection_ok_shape fsys d c hcok).1⟩
    · have hb : (buildAll (fun d0 => (buildPageTemplate fsys d0, []))
          (scanDirs fsys (basePath ++ ["src"]) "page-template.json"
            pageTemplateIgnoredMsg).1).1 = .ok proj.pageTemplates := by
        simpa [_getPageTemplates] using hpts
      obtain ⟨pt, hptm, hok⟩ := buildAll_ok_mem _ _ _ hb d hdp
      exact ⟨pt, hptm, buildPageTemplate_ok_slug fsys d pt hok⟩
  · intro d c d2 hcok hd2f hd2c
    obtain ⟨hslug, hid, hcomps, hfrs⟩ := buildCollection_ok_shape fsys d c hcok
    constructor
    · have hbf : (buildAll (buildFragment fsys)
          (scanDirs fsys d "fragment.json" fragmentIgnoredMsg).1).1 = .ok c.fragments := by
        simpa [_getCollectionFragments] using hfrs
      obtain ⟨fr, hfr, hfok⟩ := buildAll_ok_mem _ _ _ hbf d2 hd2f
      exact ⟨fr, hfr, buildFragment_ok_slug fsys d2 fr hfok⟩
    · have hbc : (buildAll (buildComposition fsys)
          (scanDirs fsys d "fragment-composition.json" compositionIgnoredMsg).1).1 =
            .ok c.fragmentCompositions := by
        simpa [_getCollectionFragmentCompositions] using hcomps
      obtain ⟨fc, hfc, hcok2⟩ := buildAll_ok_mem _ _ _ hbc d2 hd2c
      exact ⟨fc, hfc, buildComposition_ok_slug fsys d2 fc hcok2⟩

/-- Witness for C10 on `fs10`: `/p/src/both` appears in both `collections`
and `pageTemplates`, and `/p/src/both/dual` in both `fragments` and
`fragmentCompositions`. -/
theorem c10_witness :
    (getProjectContent fs10 ["p"]).1 = .ok proj10 ∧
      ((∃ c, c ∈ proj10.collections ∧ c.slug = FPath.basename ["p", "src", "both"]) ∧
        (∃ pt, pt ∈ proj10.pageTemplates ∧
          pt.slug = FPath.basename ["p", "src", "both"])) ∧
      ((∃ fr, fr ∈ col10.fragments ∧
          fr.slug = FPath.basename ["p", "src", "both", "dual"]) ∧
        (∃ fc, fc ∈ col10.fragmentCompositions ∧
          fc.slug = FPath.basename ["p", "src", "both", "dual"])) := by
  have h : (getProjectContent fs10 ["p"]).1 = .ok proj10 := rfl
  have hmain := c10_dual_marker_dirs fs10 ["p"] proj10 h
  refine ⟨h, hmain.1 ["p", "src", "both"] (by decide) (by decide), ?_⟩
  exact hmain.2 ["p", "src", "both"] col10 ["p", "src", "both", "dual"] rfl
    (by decide) (by decide)

/-- **C1** is false as stated: with `htmlPath` absent (`undefined`, a falsy
value), the fragment content loader does return `""` — but it emits two log
entries, because the unguarded `path.resolve(directory, undefined)` throws
inside the `try` and the `catch` logs before returning `""`.  The claim's
"without emitting any log entry" fails at this concrete input. -/
theorem c1_counterexample :
    jsTruthy none = false ∧
      (fragmentReadFile ⟨[]⟩ ["p", "src", "c", "f"] (.obj []) none).2 ≠ [] :=
  ⟨rfl, by decide⟩

/-- **C1** (amended).  When the metadata field naming a content file is falsy
(absent/`null`/`false`/`0`/the empty string), the content loader — for
fragments and fragment compositions alike — returns the empty string and
never raises, but it does log: the caught failure emits exactly two log
entries.  (For the empty-string path, which resolves to the entity directory
itself, this needs the directory not to be a readable text file, which on a
real filesystem it never is.) -/
theorem c1_amended_falsy_logs (fsys : FS) (directory : FPath) (metadata : Json)
    (v : Option Json) (hfalsy : jsTruthy v = false)
    (hnotfile : ∀ s, v = some (.str s) →
      ∀ cont, fsys.lookup (resolvePath directory s) ≠ some (.file cont)) :
    ((fragmentReadFile fsys directory metadata v).1 = "" ∧
      (fragmentReadFile fsys directory metadata v).2.length = 2) ∧
    ((compositionReadFile fsys directory metadata v).1 = "" ∧
      (compositionReadFile fsys directory metadata v).2.length = 2) := by
  cases v with
  | none => exact ⟨⟨rfl, rfl⟩, rfl, rfl⟩
  | some j =>
    cases j with
    | null => exact ⟨⟨rfl, rfl⟩, rfl, rfl⟩
    | bool b => exact ⟨⟨rfl, rfl⟩, rfl, rfl⟩
    | num n => exact ⟨⟨rfl, rfl⟩, rfl, rfl⟩
    | arr es => exact ⟨⟨rfl, rfl⟩, rfl, rfl⟩
    | obj ms => exact ⟨⟨rfl, rfl⟩, rfl, rfl⟩
    | str s =>
      have hs : s = "" := by simpa [jsTruthy] using hfalsy
      subst hs
      cases hl : fsys.lookup (resolvePath directory "") with
      | none =>
        constructor <;>
          simp [fragmentReadFile, compositionReadFile, readFileCaught,
            FS.readFileSyncE, hl]
      | some fd =>
        cases fd with
        | dir =>
          constructor <;>
            simp [fragmentReadFile, compositionReadFile, readFileCaught,
              FS.readFileSyncE, hl]
        | file cont => exact absurd hl (hnotfile "" rfl cont)

/-- Witness for the amended C1 at a concrete falsy input (absent field). -/
theorem c1_witness :
    jsTruthy none = false ∧
      (((fragmentReadFile ⟨[]⟩ ["proj"] (Json.obj []) none).1 = "" ∧
        (fragmentReadFile ⟨[]⟩ ["proj"] (Json.obj []) none).2.length = 2) ∧
       ((compositionReadFile ⟨[]⟩ ["proj"] (Json.obj []) none).1 = "" ∧
        (compositionReadFile ⟨[]⟩ ["proj"] (Json.obj []) none).2.length = 2)) :=
  ⟨rfl, c1_amended_falsy_logs ⟨[]⟩ ["proj"] (Json.obj []) none rfl
    (fun _ h => nomatch h)⟩

/-- **C6.** A fragment whose `htmlPath` names a missing file still builds:
its `html` degrades to `""`, it is still included in its collection's
`fragments` sequence, and every other field (slug, metadata, css, js,
configuration) is exactly what it is on the filesystem `fs2` where the html
file exists (`fs2` being `fs1` plus that one file, which none of the other
referenced paths collide with). -/
theorem c6_missing_html_degrades_only_html (fs1 fs2 : FS) (d : FPath)
    (metadata : Json) (hrel content : String)
    (hmeta : _readJSONSync fs1 (resolvePath d "fragment.json") = .ok metadata)
    (hhtml : jsonLookup metadata "htmlPath" = some (.str hrel))
    (hmissing : fs1.lookup (resolvePath d hrel) = none)
    (hconf : isOkE (_getFramentConfiguration fs1 d
      (jsonLookup metadata "configurationPath")) = true)
    (hfs2 : fs2.entries = (resolvePath d hrel, .file content) :: fs1.entries)
    (hne_marker : resolvePath d "fragment.json" ≠ resolvePath d hrel)
    (hne_css : ∀ s, jsonLookup metadata "cssPath" = some (.str s) →
      resolvePath d s ≠ resolvePath d hrel)
    (hne_js : ∀ s, jsonLookup metadata "jsPath" = some (.str s) →
      resolvePath d s ≠ resolvePath d hrel)
    (hne_conf : ∀ s, jsonLookup metadata "configurationPath" = some (.str s) →
      resolvePath d s ≠ resolvePath d hrel) :
    ∃ fr1 fr2 : Fragment,
      (buildFragment fs1 d).1 = .ok fr1 ∧ (buildFragment fs2 d).1 = .ok fr2 ∧
      fr1.html = "" ∧ fr2.html = content ∧
      fr1.slug = fr2.slug ∧ fr1.metadata = fr2.metadata ∧ fr1.css = fr2.css ∧
      fr1.js = fr2.js ∧ fr1.configuration = fr2.configuration ∧
      (∀ colDir frs, (_getCollectionFragments fs1 colDir).1 = .ok frs →
        d ∈ (scanDirs fs1 colDir "fragment.json" fragmentIgnoredMsg).1 →
        fr1 ∈ frs) := by
  obtain ⟨cfg, hcfg⟩ : ∃ cfg, _getFramentConfiguration fs1 d
      (jsonLookup metadata "configurationPath") = .ok cfg := by
    cases hcc : _getFramentConfiguration fs1 d
        (jsonLookup metadata "configurationPath") with
    | ok c => exact ⟨c, rfl⟩
    | error e =>
      rw [hcc] at hconf
      exact absurd hconf (by simp [isOkE])
  have hmeta2 : _readJSONSync fs2 (resolvePath d "fragment.json") = .ok metadata := by
    rw [readJSON_of_cons fs1 fs2 _ content hfs2 _ hne_marker]
    exact hmeta
  have hcss2 : fragmentReadFile fs2 d metadata (jsonLookup metadata "cssPath") =
      fragmentReadFile fs1 d metadata (jsonLookup metadata "cssPath") :=
    fragmentReadFile_of_cons fs1 fs2 _ content hfs2 d metadata _ hne_css
  have hjs2 : fragmentReadFile fs2 d metadata (jsonLookup metadata "jsPath") =
      fragmentReadFile fs1 d metadata (jsonLookup metadata "jsPath") :=
    fragmentReadFile_of_cons fs1 fs2 _ content hfs2 d metadata _ hne_js
  have hcfg2 : _getFramentConfiguration fs2 d
      (jsonLookup metadata "configurationPath") = .ok cfg := by
    rw [configuration_of_cons fs1 fs2 _ content hfs2 d _ hne_conf]
    exact hcfg
  have hlk2 : fs2.lookup (resolvePath d hrel) = some (.file content) := by
    unfold FS.lookup
    rw [hfs2]
    simp [List.find?]
  have e1 : (buildFragment fs1 d).1 = .ok
      { slug := FPath.basename d, metadata := metadata,
        html := (fragmentReadFile fs1 d metadata (jsonLookup metadata "htmlPath")).1,
        css := (fragmentReadFile fs1 d metadata (jsonLookup metadata "cssPath")).1,
        js := (fragmentReadFile fs1 d metadata (jsonLookup metadata "jsPath")).1,
        configuration := cfg } := by
    simp only [buildFragment, hmeta, hcfg]
  have e2 : (buildFragment fs2 d).1 = .ok
      { slug := FPath.basename d, metadata := metadata,
        html := (fragmentReadFile fs2 d metadata (jsonLookup metadata "htmlPath")).1,
        css := (fragmentReadFile fs2 d metadata (jsonLookup metadata "cssPath")).1,
        js := (fragmentReadFile fs2 d metadata (jsonLookup metadata "jsPath")).1,
        configuration := cfg } := by
    simp only [buildFragment, hmeta2, hcfg2]
  have h1v : (fragmentReadFile fs1 d metadata (jsonLookup metadata "htmlPath")).1 = "" := by
    rw [hhtml]
    simp [fragmentReadFile, readFileCaught, FS.readFileSyncE, hmissing]
  have h2v : (fragmentReadFile fs2 d metadata (jsonLookup metadata "htmlPath")).1 =
      content := by
    rw [hhtml]
    simp [fragmentReadFile, readFileCaught, FS.readFileSyncE, hlk2]
  refine ⟨_, _, e1, e2, h1v, h2v, rfl, rfl, by simp only [hcss2],
    by simp only [hjs2], rfl, ?_⟩
  intro colDir frs hfrs hd
  have hbf : (buildAll (buildFragment fs1)
      (scanDirs fs1 colDir "fragment.json" fragmentIgnoredMsg).1).1 = .ok frs := by
    simpa [_getCollectionFragments] using hfrs
  obtain ⟨fr, hfr, hfok⟩ := buildAll_ok_mem _ _ _ hbf d hd
  have hfr1 := Except.ok.inj (e1.symm.trans hfok)
  rw [← hfr1] at hfr
  exact hfr

/-- The fragment metadata of the `fs6a`/`fs6b` fixture. -/
def meta6 : Json := .obj [("htmlPath", .str "index.html"), ("cssPath", .str "styles.css")]

/-- Witness for C6 on `fs6a` (html file missing) versus `fs6b` (added). -/
theorem c6_witness :
    _readJSONSync fs6a (resolvePath ["p", "src", "c", "f"] "fragment.json") =
        .ok meta6 ∧
      fs6a.lookup (resolvePath ["p", "src", "c", "f"] "index.html") = none ∧
      (∃ fr1 fr2 : Fragment,
        (buildFragment fs6a ["p", "src", "c", "f"]).1 = .ok fr1 ∧
        (buildFragment fs6b ["p", "src", "c", "f"]).1 = .ok fr2 ∧
        fr1.html = "" ∧ fr2.html = "<div/>" ∧
        fr1.slug = fr2.slug ∧ fr1.metadata = fr2.metadata ∧ fr1.css = fr2.css ∧
        fr1.js = fr2.js ∧ fr1.configuration = fr2.configuration ∧
        (∀ colDir frs, (_getCollectionFragments fs6a colDir).1 = .ok frs →
          ["p", "src", "c", "f"] ∈
            (scanDirs fs6a colDir "fragment.json" fragmentIgnoredMsg).1 →
          fr1 ∈ frs)) := by
  refine ⟨rfl, rfl, ?_⟩
  refine c6_missing_html_degrades_only_html fs6a fs6b ["p", "src", "c", "f"]
    meta6 "index.html" "<div/>" rfl rfl rfl rfl rfl (by decide) ?_ ?_ ?_
  · intro s h
    rw [show jsonLookup meta6 "cssPath" = some (.str "styles.css") from rfl] at h
    injection h with h1
    injection h1 with h2
    subst h2
    decide
  · intro s h
    rw [show jsonLookup meta6 "jsPath" = none from rfl] at h
    exact Option.noConfusion h
  · intro s h
    rw [show jsonLookup meta6 "configurationPath" = none from rfl] at h
    exact Option.noConfusion h

end Glf
